import Mathlib

/-!
Shallow embedding of the LoL_predictor data-acquisition core
(`src/crawler/`): the rate-limited Riot client, the SQLite persistence
layer, the orchestration in `MatchBase`, the `MatchCrawler` loop and the
`FeatureBuilder` loop.  SQLite `REAL` values are modelled as `ℚ`, JSON
counters as `Nat`, rows as structures, tables as lists in rowid order.
A Python exception that the code does not catch is modelled as `none` /
`Except.error`.
-/

namespace LoLPredictor

/-- One entry of a match detail's `info.teams` array. -/
structure Team where
  teamId : Nat
  win : Bool
deriving DecidableEq, Repr

/-- One entry of a match detail's `info.participants` array, restricted to
the fields the crawler reads.  Counters are the API's non-negative
integers. -/
structure Participant where
  puuid : String
  teamId : Nat
  teamPosition : String
  kills : Nat
  deaths : Nat
  assists : Nat
  goldEarned : Nat
  totalDamageDealtToChampions : Nat
  visionScore : Nat
  win : Bool
deriving DecidableEq, Repr

/-- The `info` object of a match detail.  `gameStartTimestamp` is `none`
when the key is absent (the code then falls back to `time.time()`). -/
structure Info where
  queueId : Nat
  gameStartTimestamp : Option ℚ
  teams : List Team
  participants : List Participant
deriving DecidableEq, Repr

/-- A fetched match-v5 payload: optional `info` object (the code checks
`"info" not in match`) and `metadata.participants`. -/
structure MatchDto where
  info : Option Info
  metadataParticipants : List String
deriving DecidableEq, Repr

/-! ### `crawler/data_collector.py` helpers -/

/-- `ROLES_ORDER` from `data_collector.py`. -/
def ROLES_ORDER : List String := ["TOP", "JUNGLE", "MIDDLE", "BOTTOM", "UTILITY"]

/-- The `blue` list built by `order_puuids_by_role`: for each role in
`ROLES_ORDER`, the puuids of team-100 participants in that role, in
participant order. -/
def blueSide (players : List Participant) : List String :=
  ROLES_ORDER.flatMap fun role =>
    (players.filter fun p => decide (p.teamId = 100 ∧ p.teamPosition = role)).map (·.puuid)

/-- The `red` list built by `order_puuids_by_role`. -/
def redSide (players : List Participant) : List String :=
  ROLES_ORDER.flatMap fun role =>
    (players.filter fun p => decide (p.teamId = 200 ∧ p.teamPosition = role)).map (·.puuid)

/-- `order_puuids_by_role` from `data_collector.py`: the blue list
followed by the red list. -/
def order_puuids_by_role (players : List Participant) : List String :=
  blueSide players ++ redSide players

/-- Gold earned by team-100 participants (`gold100` in `compute_label`,
`blue_gold` in `insert_match`). -/
def gold100 (info : Info) : Nat :=
  ((info.participants.filter fun p => decide (p.teamId = 100)).map (·.goldEarned)).sum

/-- Gold earned by team-200 participants. -/
def gold200 (info : Info) : Nat :=
  ((info.participants.filter fun p => decide (p.teamId = 200)).map (·.goldEarned)).sum

/-- Gold earned by all participants, whatever their team id. -/
def totalGold (info : Info) : Nat :=
  (info.participants.map (·.goldEarned)).sum

/-- `compute_label` from `data_collector.py`:
`y = 0.55 * gold100 / (gold100 + gold200) + 0.45 * win_flag` with
`win_flag = 1.0 if teams[0]["win"] else 0.0`.  `none` models the
unguarded Python exceptions: `IndexError` on `teams[0]` when `teams` is
empty, `ZeroDivisionError` when `gold100 + gold200 = 0`. -/
def compute_label (info : Info) : Option ℚ :=
  match info.teams with
  | [] => none
  | t0 :: _ =>
      let g100 : ℚ := (gold100 info : ℚ)
      let g200 : ℚ := (gold200 info : ℚ)
      if g100 + g200 = 0 then none
      else some (55 / 100 * (g100 / (g100 + g200)) + 45 / 100 * (if t0.win then 1 else 0))

/-! ### `crawler/db_handler.py` rows and store -/

/-- One row of `player_match_stats`.  `rowid` is SQLite's implicit rowid;
the six counters are the `stats_json` payload written by
`MatchBase.update_player`. -/
structure StatRow where
  rowid : Nat
  puuid : String
  match_id : String
  timestamp : ℚ
  role : String
  kills : Nat
  deaths : Nat
  assists : Nat
  gold : Nat
  damage : Nat
  vision : Nat
deriving DecidableEq, Repr

/-- One row of `matches`.  `vector_complete` has SQLite default 0
(`false`). -/
structure MatchRow where
  match_id : String
  timestamp : ℚ
  scraped_at : ℚ
  puuids : List String
  label : ℚ
  vector_complete : Bool
  winner_side : Option String
  blue_gold : ℚ
  red_gold : ℚ
  player_gold : List (String × ℚ)
deriving DecidableEq, Repr

/-- One row of `players`. -/
structure PlayerRow where
  puuid : String
  tier : Option String
  discovered : Nat
  in_match : Nat
  has_features : Nat
  last_scraped : Option ℚ
deriving DecidableEq, Repr

/-- One row of `player_features` (replace-on-write, keyed by puuid); the
JSON blobs are abstracted to the fields the claims touch. -/
structure FeatureRow where
  puuid : String
  tier_norm : ℚ
  games_used : Nat
  last_updated : ℚ
deriving DecidableEq, Repr

/-- The four tables of the SQLite database, in rowid order, plus the next
implicit rowid for `player_match_stats`.  The `matches` table is called
`matchTable` because `matches` is reserved in Lean. -/
structure Store where
  players : List PlayerRow
  matchTable : List MatchRow
  player_match_stats : List StatRow
  player_features : List FeatureRow
  nextRowid : Nat
deriving DecidableEq, Repr

/-- `DatabaseHandler.insert_player`: `INSERT OR IGNORE` keyed by puuid. -/
def insert_player (st : Store) (puuid : String) (tier : Option String) (discovered : Nat) :
    Store :=
  if st.players.any fun r => decide (r.puuid = puuid) then st
  else { st with players := st.players ++ [⟨puuid, tier, discovered, 0, 0, none⟩] }

/-- `UPDATE players SET in_match=1 WHERE puuid=?` from `MatchCrawler.run`. -/
def set_in_match (st : Store) (puuid : String) : Store :=
  { st with players := st.players.map fun r =>
      if r.puuid = puuid then { r with in_match := 1 } else r }

/-- `DatabaseHandler.mark_scraped`: set `last_scraped` to the current
time for one player. -/
def mark_scraped (st : Store) (puuid : String) (now : ℚ) : Store :=
  { st with players := st.players.map fun r =>
      if r.puuid = puuid then { r with last_scraped := some now } else r }

/-- `DatabaseHandler.match_exists`. -/
def match_exists (st : Store) (mid : String) : Bool :=
  st.matchTable.any fun m => decide (m.match_id = mid)

/-- `DatabaseHandler.match_count`. -/
def match_count (st : Store) : Nat := st.matchTable.length

/-- The `winner_side` loop of `DatabaseHandler.insert_match`: first team
with a win flag and team id 100 or 200 decides the side. -/
def winner_side : List Team → Option String
  | [] => none
  | t :: ts =>
      if t.win ∧ t.teamId = 100 then some "blue"
      else if t.win ∧ t.teamId = 200 then some "red"
      else winner_side ts

/-- Python-dict insertion (later value for the same key wins, first-seen
key order kept), for the `player_gold` comprehension. -/
def dictInsert (m : List (String × ℚ)) (k : String) (v : ℚ) : List (String × ℚ) :=
  if m.any fun kv => decide (kv.1 = k) then
    m.map fun kv => if kv.1 = k then (k, v) else kv
  else m ++ [(k, v)]

/-- The `player_gold` dict of `insert_match`: participants with a truthy
(non-empty) puuid, mapped to their gold. -/
def player_gold_of (ps : List Participant) : List (String × ℚ) :=
  ps.foldl (fun m p => if p.puuid ≠ "" then dictInsert m p.puuid (p.goldEarned : ℚ) else m) []

/-- `DatabaseHandler.insert_match`: `INSERT OR REPLACE` keyed by
`match_id`.  The SQL statement does not mention `vector_complete`, so the
replacing row carries the column default 0 (`false`). -/
def insert_match (st : Store) (mid : String) (info : Info) (ordered : List String)
    (label : ℚ) (now : ℚ) : Store :=
  let row : MatchRow :=
    { match_id := mid
      timestamp := info.gameStartTimestamp.getD now
      scraped_at := now
      puuids := ordered
      label := label
      vector_complete := false
      winner_side := winner_side info.teams
      blue_gold := (gold100 info : ℚ)
      red_gold := (gold200 info : ℚ)
      player_gold := player_gold_of info.participants }
  { st with matchTable := (st.matchTable.filter fun m => decide (m.match_id ≠ mid)) ++ [row] }

/-- `DatabaseHandler.insert_player_match`: `INSERT OR REPLACE` keyed by
`(puuid, match_id)`; the replacing row takes a fresh rowid.  No trim
happens here. -/
def insert_player_match (st : Store) (puuid mid : String) (timestamp : ℚ) (role : String)
    (kills deaths assists gold damage vision : Nat) : Store :=
  let row : StatRow :=
    ⟨st.nextRowid, puuid, mid, timestamp, role, kills, deaths, assists, gold, damage, vision⟩
  { st with
    player_match_stats :=
      (st.player_match_stats.filter fun r =>
        decide (¬(r.puuid = puuid ∧ r.match_id = mid))) ++ [row]
    nextRowid := st.nextRowid + 1 }

/-- The rows of `player_match_stats` belonging to one player
(`WHERE puuid=?`), in table order. -/
def rowsOf (stats : List StatRow) (puuid : String) : List StatRow :=
  stats.filter fun r => decide (r.puuid = puuid)

/-- Recency order used by `ORDER BY timestamp DESC`: `a` sorts no later
than `b` when `a` is more recent, ties broken by rowid (SQLite leaves the
order among equal timestamps unspecified; the embedding fixes this
tie-break, and the theorems stated about the trim are tie-robust). -/
def moreRecentOrEq (a b : StatRow) : Prop :=
  b.timestamp < a.timestamp ∨ (a.timestamp = b.timestamp ∧ b.rowid ≤ a.rowid)

instance : DecidableRel moreRecentOrEq := fun a b => by
  unfold moreRecentOrEq; infer_instance

instance : IsTotal StatRow moreRecentOrEq where
  total a b := by
    unfold moreRecentOrEq
    rcases lt_trichotomy a.timestamp b.timestamp with h | h | h
    · exact Or.inr (Or.inl h)
    · rcases Nat.le_total b.rowid a.rowid with hr | hr
      · exact Or.inl (Or.inr ⟨h, hr⟩)
      · exact Or.inr (Or.inr ⟨h.symm, hr⟩)
    · exact Or.inl (Or.inl h)

instance : IsTrans StatRow moreRecentOrEq where
  trans a b c hab hbc := by
    unfold moreRecentOrEq at *
    rcases hab with h1 | ⟨h1, h1'⟩ <;> rcases hbc with h2 | ⟨h2, h2'⟩
    · exact Or.inl (h2.trans h1)
    · exact Or.inl (h2 ▸ h1)
    · exact Or.inl (h1 ▸ h2)
    · exact Or.inr ⟨h1.trans h2, Nat.le_trans h2' h1'⟩

/-- The rowids kept for one player by `delete_old_matches`: the sub-select
`SELECT rowid FROM player_match_stats WHERE puuid=? ORDER BY timestamp
DESC LIMIT keep`. -/
def keptRowids (stats : List StatRow) (puuid : String) (keep : Nat) : List Nat :=
  ((List.insertionSort moreRecentOrEq (rowsOf stats puuid)).take keep).map (·.rowid)

/-- The table after `DatabaseHandler.delete_old_matches`: rows of the
player whose rowid is not among the `keep` most recent are deleted. -/
def trimStats (stats : List StatRow) (puuid : String) (keep : Nat) : List StatRow :=
  stats.filter fun r => decide (r.puuid ≠ puuid ∨ r.rowid ∈ keptRowids stats puuid keep)

/-- `DatabaseHandler.delete_old_matches` on the store. -/
def delete_old_matches (st : Store) (puuid : String) (keep : Nat) : Store :=
  { st with player_match_stats := trimStats st.player_match_stats puuid keep }

/-! ### `crawler/match_base.py` -/

/-- The body of `MatchBase.update_player`'s per-match-id loop: skip the id
if a `(puuid, match_id)` stat row already exists, skip when the detail is
missing or has no `info`, otherwise insert the stats of the first
participant whose puuid matches (the loop `break`s after it). -/
def insertPhaseStep (puuid : String) (detail : String → Option MatchDto) (now : ℚ)
    (st : Store) (mid : String) : Store :=
  if st.player_match_stats.any fun r => decide (r.puuid = puuid ∧ r.match_id = mid) then st
  else
    match detail mid with
    | none => st
    | some dto =>
        match dto.info with
        | none => st
        | some info =>
            match info.participants.find? fun p => decide (p.puuid = puuid) with
            | none => st
            | some p =>
                insert_player_match st puuid mid (info.gameStartTimestamp.getD now)
                  p.teamPosition p.kills p.deaths p.assists p.goldEarned
                  p.totalDamageDealtToChampions p.visionScore

/-- The insert loop of `MatchBase.update_player` over the fetched id
list. -/
def insertPhase (puuid : String) (detail : String → Option MatchDto) (now : ℚ)
    (st : Store) (ids : List String) : Store :=
  ids.foldl (insertPhaseStep puuid detail now) st

/-- `MatchBase.update_player`: fetch up to 10 match ids (`ids`), return at
once when the list is empty, otherwise insert unseen stats, trim to the
newest 10 and mark the player scraped. -/
def update_player (puuid : String) (ids : List String) (detail : String → Option MatchDto)
    (now : ℚ) (st : Store) : Store :=
  if ids = [] then st
  else
    mark_scraped (delete_old_matches (insertPhase puuid detail now st ids) puuid 10) puuid now

/-- The two database files handled by the dual-copy protocol; `none`
means the file does not exist, a byte list is its content. -/
structure FileSystem where
  live : Option (List Nat)
  update : Option (List Nat)
deriving DecidableEq, Repr

/-- `MatchBase.copy_live_db`: remove a stale update file, then
`shutil.copy(live, update)`.  The error case is the `FileNotFoundError`
raised by `shutil.copy` when the live file is absent, carrying the file
state at that point. -/
def copy_live_db (fs : FileSystem) : Except FileSystem FileSystem :=
  let fs1 : FileSystem := { fs with update := none }
  match fs1.live with
  | none => .error fs1
  | some c => .ok { fs1 with update := some c }

/-- `MatchBase.promote_update_db`: remove the live file, then
`shutil.copy(update, live)`. -/
def promote_update_db (fs : FileSystem) : Except FileSystem FileSystem :=
  let fs1 : FileSystem := { fs with live := none }
  match fs1.update with
  | none => .error fs1
  | some c => .ok { fs1 with live := some c }

/-! ### `crawler/riot_api_client.py` -/

/-- One upstream HTTP response: status, optional integer `Retry-After`
header and the JSON body (abstracted to a string). -/
structure Response where
  status : Nat
  retryAfter : Option Nat
  body : String
deriving DecidableEq, Repr

/-- The observable behaviour of one `RiotAPIClient._safe_get` call: the
requests issued (in order), the sleeps performed (in order), and the
outcome: `some (some b)` = parsed payload returned, `some none` =
`None` returned on a non-success status, `none` = the retry recursion was
still running when the modelling fuel ran out. -/
structure FetchTrace where
  requests : List String
  sleeps : List ℚ
  result : Option (Option String)
deriving DecidableEq, Repr

/-- `RiotAPIClient._safe_get` against a response oracle (`responses n` is
the answer to the `n`-th attempt).  On 429 it sleeps
`int(headers.get("Retry-After", 2))` seconds and re-issues the same url;
on any other non-200 it returns `None` with no sleep; on 200 it sleeps
the fixed cooldown and returns the body.  The unbounded recursion of the
source is made total with fuel. -/
def safe_get (url : String) (responses : Nat → Response) (cooldown : ℚ) :
    Nat → Nat → FetchTrace
  | 0, _ => ⟨[], [], none⟩
  | fuel + 1, attempt =>
      let r := responses attempt
      if r.status = 429 then
        let rest := safe_get url responses cooldown fuel (attempt + 1)
        ⟨url :: rest.requests, ((r.retryAfter.getD 2 : Nat) : ℚ) :: rest.sleeps, rest.result⟩
      else if r.status ≠ 200 then ⟨[url], [], some none⟩
      else ⟨[url], [cooldown], some (some r.body)⟩

/-! ### `crawler/data_collector.py` — `MatchCrawler` -/

/-- The body of `MatchCrawler.run`'s per-match-id step: skip ids already
stored, skip missing details, details without `info`, non-420 queues and
details whose role-ordered puuid list is not of length 10; otherwise
compute the label, insert the match and insert/flag every
`metadata.participants` puuid.  `none` models the uncaught exception when
`compute_label` raises. -/
def processMid (detail : String → Option MatchDto) (now : ℚ) (st : Store) (mid : String) :
    Option Store :=
  if match_exists st mid then some st
  else
    match detail mid with
    | none => some st
    | some dto =>
        match dto.info with
        | none => some st
        | some info =>
            if info.queueId ≠ 420 then some st
            else
              let ordered := order_puuids_by_role info.participants
              if ordered.length ≠ 10 then some st
              else
                match compute_label info with
                | none => none
                | some label =>
                    let st1 := insert_match st mid info ordered label now
                    let st2 := dto.metadataParticipants.foldl
                      (fun s pid => set_in_match (insert_player s pid none 1) pid) st1
                    some st2

/-! ### `crawler/feature_builder.py` -/

/-- `FeatureBuilder.next_unprocessed_match`: first match in table order
whose `vector_complete` is NULL or 0. -/
def next_unprocessed_match (st : Store) : Option String :=
  (st.matchTable.find? fun m => !m.vector_complete).map (·.match_id)

/-- `FeatureBuilder.mark_complete`: set `vector_complete = 1` for one
match id. -/
def mark_complete (st : Store) (mid : String) : Store :=
  { st with matchTable := st.matchTable.map fun m =>
      if m.match_id = mid then { m with vector_complete := true } else m }

/-- `INSERT OR REPLACE INTO player_features` keyed by puuid. -/
def upsert_feature (st : Store) (row : FeatureRow) : Store :=
  { st with player_features :=
      (st.player_features.filter fun f => decide (f.puuid ≠ row.puuid)) ++ [row] }

/-- `UPDATE players SET has_features=1 WHERE puuid=?`. -/
def set_has_features (st : Store) (puuid : String) : Store :=
  { st with players := st.players.map fun r =>
      if r.puuid = puuid then { r with has_features := 1 } else r }

/-- `FeatureBuilder.process_match`: returns `(state, False)` without any
write when the detail fetch fails or has no `info`; otherwise computes the
label, writes a feature row and the `has_features` flag for every
participant, and finally marks the match complete.  The static-profile
and match-history enrichment (network plus on-disk cache) is abstracted
by the `statics` (tier-norm) and `histLen` (cached-history length)
oracles; `none` models the uncaught exception when `compute_label`
raises. -/
def process_match (detail : String → Option MatchDto) (statics : String → ℚ)
    (histLen : String → Nat) (now : ℚ) (st : Store) (mid : String) :
    Option (Store × Bool) :=
  match detail mid with
  | none => some (st, false)
  | some dto =>
      match dto.info with
      | none => some (st, false)
      | some info =>
          match compute_label info with
          | none => none
          | some _label =>
              let st1 := info.participants.foldl
                (fun s p =>
                  set_has_features (upsert_feature s ⟨p.puuid, statics p.puuid, histLen p.puuid, now⟩)
                    p.puuid) st
              some (mark_complete st1 mid, true)

/-- The cap test `if max_matches and processed >= max_matches` of
`FeatureBuilder.run` (a `None` or `0` cap is falsy and never stops the
loop). -/
def capReached : Option Nat → Nat → Bool
  | none, _ => false
  | some c, n => decide (c ≠ 0) && decide (c ≤ n)

/-- `FeatureBuilder.run`: repeatedly select the first incomplete match
and process it; a failed `process_match` leaves the state unchanged and
`continue`s.  Outcome `some .allComplete` = the "all matches already
vector_complete" exit, `some .capped` = the processed-count cap exit,
`none` (inner) = the loop was still running when the fuel ran out; an
outer `none` models an exception escaping the loop. -/
inductive RunOutcome
  | allComplete
  | capped
deriving DecidableEq, Repr

def runLoop (detail : String → Option MatchDto) (statics : String → ℚ)
    (histLen : String → Nat) (now : ℚ) (maxMatches : Option Nat) :
    Store → Nat → Nat → Option (Store × Option RunOutcome)
  | st, _, 0 => some (st, none)
  | st, processed, fuel + 1 =>
      match next_unprocessed_match st with
      | none => some (st, some RunOutcome.allComplete)
      | some mid =>
          match process_match detail statics histLen now st mid with
          | none => none
          | some (st', ok) =>
              if ok then
                if capReached maxMatches (processed + 1) then some (st', some RunOutcome.capped)
                else runLoop detail statics histLen now maxMatches st' (processed + 1) fuel
              else runLoop detail statics histLen now maxMatches st' processed fuel

/-! ### Invariants, spec-side predicates and concrete inputs -/

/-- Well-formedness of the stats table as maintained by the handler:
rowids are pairwise distinct and below the next fresh rowid. -/
def wfStats (st : Store) : Prop :=
  (st.player_match_stats.map (·.rowid)).Nodup ∧
  ∀ r ∈ st.player_match_stats, r.rowid < st.nextRowid

instance : DecidablePred wfStats := fun st => by
  unfold wfStats; infer_instance

/-- Stated from the claim's words (not from the source): a stored puuid
list of length 10 is split 5/5 by side, the first five puuids belonging
to team-100 participants and the next five to team-200 participants. -/
def canonicalSplit (info : Info) (l : List String) : Prop :=
  l.length = 10 ∧
  (∀ s ∈ l.take 5, ∃ p ∈ info.participants, p.puuid = s ∧ p.teamId = 100) ∧
  (∀ s ∈ l.drop 5, ∃ p ∈ info.participants, p.puuid = s ∧ p.teamId = 200)

instance (info : Info) (l : List String) : Decidable (canonicalSplit info l) := by
  unfold canonicalSplit; infer_instance

/-- A participant record with only puuid, team, role, gold and win flag
set, for concrete test inputs. -/
def mkP (pu : String) (team : Nat) (role : String) (g : Nat) (w : Bool) : Participant :=
  ⟨pu, team, role, 0, 0, 0, g, 0, 0, w⟩

/-- A freshly initialised database. -/
def emptyStore : Store := ⟨[], [], [], [], 0⟩

/-- A match detail with duplicated roles: six team-100 participants (two
TOPs) and four team-200 participants, ten in total. -/
def dupRoleParts : List Participant :=
  [mkP "A1" 100 "TOP" 100 true, mkP "A2" 100 "TOP" 100 true,
   mkP "A3" 100 "JUNGLE" 100 true, mkP "A4" 100 "MIDDLE" 100 true,
   mkP "A5" 100 "BOTTOM" 100 true, mkP "A6" 100 "UTILITY" 100 true,
   mkP "B1" 200 "JUNGLE" 100 false, mkP "B2" 200 "MIDDLE" 100 false,
   mkP "B3" 200 "BOTTOM" 100 false, mkP "B4" 200 "UTILITY" 100 false]

def dupRoleInfo : Info := ⟨420, some 1000, [⟨100, true⟩, ⟨200, false⟩], dupRoleParts⟩

def dupRoleDetail : String → Option MatchDto := fun mid =>
  if mid = "EUW1_DUP" then some ⟨some dupRoleInfo, dupRoleParts.map (·.puuid)⟩ else none

/-- A well-formed ranked match detail: one participant per role per
side. -/
def goodParts : List Participant :=
  [mkP "G1" 100 "TOP" 100 true, mkP "G2" 100 "JUNGLE" 100 true,
   mkP "G3" 100 "MIDDLE" 100 true, mkP "G4" 100 "BOTTOM" 100 true,
   mkP "G5" 100 "UTILITY" 100 true,
   mkP "H1" 200 "TOP" 100 false, mkP "H2" 200 "JUNGLE" 100 false,
   mkP "H3" 200 "MIDDLE" 100 false, mkP "H4" 200 "BOTTOM" 100 false,
   mkP "H5" 200 "UTILITY" 100 false]

def goodInfo : Info := ⟨420, some 1000, [⟨100, true⟩, ⟨200, false⟩], goodParts⟩

def goodDetail : String → Option MatchDto := fun mid =>
  if mid = "EUW1_GOOD" then some ⟨some goodInfo, goodParts.map (·.puuid)⟩ else none

/-- The state after the crawler step stores the well-formed match. -/
def goodStore : Store := (processMid goodDetail 0 emptyStore "EUW1_GOOD").getD emptyStore

/-- A match detail with only nine resolvable participants (no blue
UTILITY). -/
def nineParts : List Participant :=
  [mkP "G1" 100 "TOP" 100 true, mkP "G2" 100 "JUNGLE" 100 true,
   mkP "G3" 100 "MIDDLE" 100 true, mkP "G4" 100 "BOTTOM" 100 true,
   mkP "H1" 200 "TOP" 100 false, mkP "H2" 200 "JUNGLE" 100 false,
   mkP "H3" 200 "MIDDLE" 100 false, mkP "H4" 200 "BOTTOM" 100 false,
   mkP "H5" 200 "UTILITY" 100 false]

def nineInfo : Info := ⟨420, some 1000, [⟨100, true⟩, ⟨200, false⟩], nineParts⟩

def nineDto : MatchDto := ⟨some nineInfo, nineParts.map (·.puuid)⟩

def nineDetail : String → Option MatchDto := fun mid =>
  if mid = "EUW1_NINE" then some nineDto else none

/-- A match detail whose blue side holds 60% of the gold and wins. -/
def info60 : Info :=
  ⟨420, some 0, [⟨100, true⟩, ⟨200, false⟩],
   [mkP "A" 100 "TOP" 60 true, mkP "B" 200 "TOP" 40 false]⟩

/-- A match detail whose only participant is on neither team 100 nor
team 200 but earned gold. -/
def infoT300 : Info := ⟨420, some 0, [⟨100, true⟩], [mkP "X" 300 "TOP" 100 true]⟩

/-- A non-empty-teams match detail where nobody earned any gold. -/
def infoZeroGold : Info := ⟨420, some 0, [⟨100, true⟩], [mkP "X" 100 "TOP" 0 true]⟩

/-- A match detail with an empty teams array. -/
def infoNoTeams : Info := ⟨420, some 0, [], [mkP "X" 100 "TOP" 10 true]⟩

/-- A match row that is already feature-complete. -/
def c2row : MatchRow := ⟨"M1", 5, 6, ["A1", "B1"], 1, true, some "blue", 100, 100, []⟩

/-- A store whose only match is already feature-complete. -/
def stC2 : Store := ⟨[], [c2row], [], [], 0⟩

/-- A store holding exactly ten stat rows for player `P`. -/
def tenStore : Store :=
  ⟨[], [], (List.range 10).map fun i => ⟨i, "P", toString i, (i : ℚ), "TOP", 0, 0, 0, 0, 0, 0⟩,
   [], 10⟩

/-- The id list and detail oracle used to run one update of player `P`
against `tenStore`: one unseen match. -/
def newDetail : String → Option MatchDto := fun mid =>
  if mid = "NEW" then
    some ⟨some ⟨420, some 50, [⟨100, true⟩, ⟨200, false⟩], [mkP "P" 100 "TOP" 10 true]⟩, ["P"]⟩
  else none

/-- A store where player `P` has `last_scraped = 5` and one stored stat
row for match `M1`. -/
def stC8 : Store :=
  ⟨[⟨"P", none, 0, 0, 0, some 5⟩], [], [⟨0, "P", "M1", 3, "TOP", 1, 1, 1, 1, 1, 1⟩], [], 1⟩

/-- A store with a single feature-incomplete match. -/
def stC9 : Store := ⟨[], [⟨"M1", 0, 0, [], 0, false, none, 0, 0, []⟩], [], [], 0⟩

/-- The row produced by re-inserting `M1` into `stC2`. -/
def c2rowIns : MatchRow :=
  ⟨"M1", 0, 7, ["A1", "B1"], 1, false, winner_side info60.teams,
   (gold100 info60 : ℚ), (gold200 info60 : ℚ), player_gold_of info60.participants⟩

/-- An upstream that always answers 429 with `Retry-After: 3`. -/
def resp429 : Nat → Response := fun _ => ⟨429, some 3, ""⟩

/-- An upstream that always answers 503. -/
def respFail : Nat → Response := fun _ => ⟨503, none, ""⟩

/-- An upstream that always answers 200. -/
def respOk : Nat → Response := fun _ => ⟨200, none, "payload"⟩

/-! ## Helper lemmas for the rate-limited client -/

theorem safe_get_step_429 (url : String) (responses : Nat → Response) (cooldown : ℚ)
    (fuel attempt : Nat) (h : (responses attempt).status = 429) :
    safe_get url responses cooldown (fuel + 1) attempt =
      ⟨url :: (safe_get url responses cooldown fuel (attempt + 1)).requests,
       (((responses attempt).retryAfter.getD 2 : Nat) : ℚ)
         :: (safe_get url responses cooldown fuel (attempt + 1)).sleeps,
       (safe_get url responses cooldown fuel (attempt + 1)).result⟩ := by
  simp [safe_get, h]

theorem safe_get_step_fail (url : String) (responses : Nat → Response) (cooldown : ℚ)
    (fuel attempt : Nat) (h429 : (responses attempt).status ≠ 429)
    (h200 : (responses attempt).status ≠ 200) :
    safe_get url responses cooldown (fuel + 1) attempt = ⟨[url], [], some none⟩ := by
  simp [safe_get, h429, h200]

theorem safe_get_step_ok (url : String) (responses : Nat → Response) (cooldown : ℚ)
    (fuel attempt : Nat) (h : (responses attempt).status = 200) :
    safe_get url responses cooldown (fuel + 1) attempt =
      ⟨[url], [cooldown], some (some (responses attempt).body)⟩ := by
  have h429 : (responses attempt).status ≠ 429 := by omega
  simp [safe_get, h, h429]

/-- Unrolling `k` leading rate-limit responses: the client issues the
identical request `k` further times, sleeping the advised durations. -/
theorem safe_get_leading_429 (url : String) (responses : Nat → Response) (cooldown : ℚ)
    (k : Nat) : ∀ (fuel a : Nat), (∀ i, i < k → (responses (a + i)).status = 429) →
    safe_get url responses cooldown (k + fuel) a =
      ⟨List.replicate k url ++ (safe_get url responses cooldown fuel (a + k)).requests,
       ((List.range k).map fun i => (((responses (a + i)).retryAfter.getD 2 : Nat) : ℚ))
         ++ (safe_get url responses cooldown fuel (a + k)).sleeps,
       (safe_get url responses cooldown fuel (a + k)).result⟩ := by
  induction k with
  | zero => intro fuel a _; simp
  | succ k ih =>
      intro fuel a h
      have h0 : (responses a).status = 429 := by simpa using h 0 (Nat.succ_pos k)
      have hih := ih fuel (a + 1) fun i hi => by
        have hx := h (i + 1) (by omega)
        have : a + (i + 1) = a + 1 + i := by omega
        rwa [this] at hx
      have hsh : a + 1 + k = a + (k + 1) := by omega
      have hsl : (List.range (k + 1)).map
            (fun i => (((responses (a + i)).retryAfter.getD 2 : Nat) : ℚ)) =
          (((responses a).retryAfter.getD 2 : Nat) : ℚ) ::
            (List.range k).map
              (fun i => (((responses (a + 1 + i)).retryAfter.getD 2 : Nat) : ℚ)) := by
        rw [List.range_succ_eq_map]
        simp only [List.map_cons, List.map_map, Nat.add_zero]
        refine congrArg₂ _ rfl (List.map_congr_left fun i _ => ?_)
        have : a + 1 + i = a + (i + 1) := by omega
        simp [Function.comp, this]
      rw [show k + 1 + fuel = (k + fuel) + 1 from by omega,
        safe_get_step_429 url responses cooldown (k + fuel) a h0, hih, hsh, hsl]
      simp [List.replicate_succ]

/-! ## Claim theorems -/

/-- C4.  For every match detail with a non-empty teams list and positive
blue-plus-red gold, `compute_label` returns
`0.55 * blue-share + 0.45 * first-team-win`; in particular a blue share
of 0.60 together with a first-team win yields exactly 0.78 = 39/50. -/
theorem c4_label_formula (info : Info) (t0 : Team) (ts : List Team)
    (hteams : info.teams = t0 :: ts)
    (hpos : 0 < gold100 info + gold200 info) :
    compute_label info =
      some (55 / 100 * ((gold100 info : ℚ) / ((gold100 info : ℚ) + (gold200 info : ℚ)))
        + 45 / 100 * (if t0.win then 1 else 0)) ∧
    (t0.win = true → 5 * gold100 info = 3 * (gold100 info + gold200 info) →
      compute_label info = some (39 / 50)) := by
  have hsum : ((gold100 info : ℚ) + (gold200 info : ℚ)) ≠ 0 := by
    have h : (0 : ℚ) < (gold100 info : ℚ) + (gold200 info : ℚ) := by exact_mod_cast hpos
    exact ne_of_gt h
  have hbase :
      compute_label info =
        some (55 / 100 * ((gold100 info : ℚ) / ((gold100 info : ℚ) + (gold200 info : ℚ)))
          + 45 / 100 * (if t0.win then 1 else 0)) := by
    simp only [compute_label, hteams]
    rw [if_neg hsum]
  refine ⟨hbase, fun hwin hshare => ?_⟩
  have hshareQ : (gold100 info : ℚ) / ((gold100 info : ℚ) + (gold200 info : ℚ)) = 3 / 5 := by
    have h5 : (5 : ℚ) * (gold100 info : ℚ) =
        3 * ((gold100 info : ℚ) + (gold200 info : ℚ)) := by
      exact_mod_cast hshare
    field_simp
    linarith
  rw [hbase, hshareQ, hwin]
  norm_num

/-- Witness for C4 at a concrete detail: blue holds 60 of 100 gold and
the first team wins, so the label is exactly 39/50 = 0.78. -/
theorem c4_witness :
    info60.teams = ⟨100, true⟩ :: [⟨200, false⟩] ∧
    0 < gold100 info60 + gold200 info60 ∧
    compute_label info60 = some (39 / 50) :=
  ⟨rfl, by decide,
   (c4_label_formula info60 ⟨100, true⟩ [⟨200, false⟩] rfl (by decide)).2 rfl (by decide)⟩

/-- C5.  For every file-system state whose live file exists,
`copy_live_db` (stage) followed immediately by `promote_update_db`
(promote) succeeds and leaves the live file byte-identical to its
pre-stage content. -/
theorem c5_stage_then_promote (fs : FileSystem) (c : List Nat) (h : fs.live = some c) :
    ∃ fs1 fs2, copy_live_db fs = .ok fs1 ∧ promote_update_db fs1 = .ok fs2 ∧
      fs2.live = some c := by
  refine ⟨⟨some c, some c⟩, ⟨some c, some c⟩, ?_, ?_, rfl⟩
  · simp [copy_live_db, h]
  · simp [promote_update_db]

/-- Witness for C5 on a concrete file system. -/
theorem c5_witness :
    (⟨some [1, 2, 3], some [9]⟩ : FileSystem).live = some [1, 2, 3] ∧
    ∃ fs1 fs2, copy_live_db ⟨some [1, 2, 3], some [9]⟩ = .ok fs1 ∧
      promote_update_db fs1 = .ok fs2 ∧ fs2.live = some [1, 2, 3] :=
  ⟨rfl, c5_stage_then_promote ⟨some [1, 2, 3], some [9]⟩ [1, 2, 3] rfl⟩

/-- C6.  The rate-limited fetch: while every response is a rate limit the
client keeps re-issuing the identical request with no retry ceiling,
sleeping the server-advised durations and never returning (first
conjunct, for every fuel bound); a single 429 answer triggers one sleep
of `Retry-After` (default 2) and an identical re-issue (second
conjunct); any other non-success response returns `None` — not an
exception — immediately (third conjunct). -/
theorem c6_rate_limit_retry (url : String) (responses : Nat → Response) (cooldown : ℚ) :
    ((∀ n, (responses n).status = 429) → ∀ fuel,
       safe_get url responses cooldown fuel 0 =
         ⟨List.replicate fuel url,
          (List.range fuel).map fun i => (((responses i).retryAfter.getD 2 : Nat) : ℚ),
          none⟩) ∧
    (∀ attempt fuel, (responses attempt).status = 429 →
       safe_get url responses cooldown (fuel + 1) attempt =
         ⟨url :: (safe_get url responses cooldown fuel (attempt + 1)).requests,
          (((responses attempt).retryAfter.getD 2 : Nat) : ℚ)
            :: (safe_get url responses cooldown fuel (attempt + 1)).sleeps,
          (safe_get url responses cooldown fuel (attempt + 1)).result⟩) ∧
    (∀ attempt fuel, (responses attempt).status ≠ 429 → (responses attempt).status ≠ 200 →
       safe_get url responses cooldown (fuel + 1) attempt = ⟨[url], [], some none⟩) := by
  refine ⟨fun h429 fuel => ?_, fun attempt fuel h => safe_get_step_429 _ _ _ _ _ h,
    fun attempt fuel h1 h2 => safe_get_step_fail _ _ _ _ _ h1 h2⟩
  have := safe_get_leading_429 url responses cooldown fuel 0 0
    (fun i _ => by simpa using h429 i)
  simpa [safe_get] using this

/-- Witness for C6: a permanent-429 upstream is retried twice in two fuel
steps with the advised 3-second sleeps and no final answer; a 503 answer
returns `None` at once. -/
theorem c6_witness :
    (∀ n, (resp429 n).status = 429) ∧
    safe_get "u" resp429 (1 / 4) 2 0 =
      ⟨List.replicate 2 "u",
       (List.range 2).map fun i => (((resp429 i).retryAfter.getD 2 : Nat) : ℚ), none⟩ ∧
    ((respFail 0).status ≠ 429 ∧ (respFail 0).status ≠ 200) ∧
    safe_get "u" respFail (1 / 4) 1 0 = ⟨["u"], [], some none⟩ :=
  ⟨fun _ => rfl, (c6_rate_limit_retry "u" resp429 (1 / 4)).1 (fun _ => rfl) 2,
   ⟨by decide, by decide⟩,
   (c6_rate_limit_retry "u" respFail (1 / 4)).2.2 0 0 (by decide) (by decide)⟩

/-- Counterexample to C7 as stated: a request completed with a 503
failure returns with an empty sleep log — the fixed cooldown (here 1/4)
is never waited before the concurrency slot is released. -/
theorem c7_counterexample :
    (safe_get "u" respFail (1 / 4) 1 0).result = some none ∧
    (safe_get "u" respFail (1 / 4) 1 0).sleeps = [] ∧
    (1 / 4 : ℚ) ∉ (safe_get "u" respFail (1 / 4) 1 0).sleeps := by
  refine ⟨rfl, rfl, by simp [safe_get, respFail]⟩

/-- C7 amended: the client waits the fixed cooldown before releasing its
slot only after a successful (200) response; a non-rate-limit failure
returns immediately with no sleep at all. -/
theorem c7_cooldown_only_on_success (url : String) (responses : Nat → Response)
    (cooldown : ℚ) (attempt fuel : Nat) :
    ((responses attempt).status = 200 →
       safe_get url responses cooldown (fuel + 1) attempt =
         ⟨[url], [cooldown], some (some (responses attempt).body)⟩) ∧
    ((responses attempt).status ≠ 429 → (responses attempt).status ≠ 200 →
       safe_get url responses cooldown (fuel + 1) attempt = ⟨[url], [], some none⟩) :=
  ⟨fun h => safe_get_step_ok _ _ _ _ _ h,
   fun h1 h2 => safe_get_step_fail _ _ _ _ _ h1 h2⟩

/-- Witness for the amended C7: a 200 answer sleeps exactly the cooldown,
a 503 answer sleeps nothing. -/
theorem c7_witness :
    ((respOk 0).status = 200 ∧
      safe_get "u" respOk (1 / 4) 1 0 = ⟨["u"], [1 / 4], some (some "payload")⟩) ∧
    ((respFail 0).status ≠ 429 ∧ (respFail 0).status ≠ 200 ∧
      safe_get "u" respFail (1 / 4) 1 0 = ⟨["u"], [], some none⟩) :=
  ⟨⟨rfl, (c7_cooldown_only_on_success "u" respOk (1 / 4) 0 0).1 rfl⟩,
   ⟨by decide, by decide, (c7_cooldown_only_on_success "u" respFail (1 / 4) 0 0).2
      (by decide) (by decide)⟩⟩

/-- C9.  On a store holding one feature-incomplete match whose detail the
upstream never serves, `FeatureBuilder.run` never terminates: for every
amount of fuel, with or without a processed-count cap, the loop is still
running (outcome marker `none`), since the failed `process_match` leaves
the store unchanged and the same match is selected again. -/
theorem c9_nontermination (statics : String → ℚ) (histLen : String → Nat) (now : ℚ)
    (cap : Option Nat) (processed fuel : Nat) :
    runLoop (fun _ => none) statics histLen now cap stC9 processed fuel =
      some (stC9, none) := by
  induction fuel generalizing processed with
  | zero => rfl
  | succ k ih => simpa [runLoop, next_unprocessed_match, stC9, process_match] using ih processed

/-- Counterexample to C10 as stated: a match detail with a non-empty
teams list and positive combined participant gold on which
`compute_label` still raises (its only participant is on team 300, so the
blue-plus-red denominator is zero). -/
theorem c10_counterexample :
    infoT300.teams ≠ [] ∧ 0 < totalGold infoT300 ∧ compute_label infoT300 = none := by
  refine ⟨by decide, by decide, ?_⟩
  norm_num [compute_label, infoT300, gold100, gold200, mkP]

/-- C10 amended: with a non-empty teams list and positive blue-plus-red
gold, `compute_label` returns a value in [0, 1]; with a non-empty teams
list but zero blue-plus-red gold it raises (`none`, the
`ZeroDivisionError`); with an empty teams list it raises (`none`, the
`IndexError`). -/
theorem c10_label_partiality :
    (∀ info : Info, info.teams ≠ [] → 0 < gold100 info + gold200 info →
       ∃ q, compute_label info = some q ∧ 0 ≤ q ∧ q ≤ 1) ∧
    (∀ info : Info, info.teams ≠ [] → gold100 info + gold200 info = 0 →
       compute_label info = none) ∧
    (∀ info : Info, info.teams = [] → compute_label info = none) := by
  refine ⟨fun info hne hpos => ?_, fun info hne hzero => ?_, fun info hnil => ?_⟩
  · obtain ⟨t0, ts, hteams⟩ := List.exists_cons_of_ne_nil hne
    have hsumpos : (0 : ℚ) < (gold100 info : ℚ) + (gold200 info : ℚ) := by
      have : (0 : ℚ) < ((gold100 info + gold200 info : Nat) : ℚ) := by exact_mod_cast hpos
      push_cast at this
      linarith
    have hr0 : (0 : ℚ) ≤ (gold100 info : ℚ) / ((gold100 info : ℚ) + (gold200 info : ℚ)) :=
      div_nonneg (by positivity) (le_of_lt hsumpos)
    have hr1 : (gold100 info : ℚ) / ((gold100 info : ℚ) + (gold200 info : ℚ)) ≤ 1 := by
      rw [div_le_one hsumpos]
      have : (0 : ℚ) ≤ (gold200 info : ℚ) := by positivity
      linarith
    have hw0 : (0 : ℚ) ≤ (if t0.win then (1 : ℚ) else 0) := by split <;> norm_num
    have hw1 : (if t0.win then (1 : ℚ) else 0) ≤ 1 := by split <;> norm_num
    refine ⟨55 / 100 * ((gold100 info : ℚ) / ((gold100 info : ℚ) + (gold200 info : ℚ)))
      + 45 / 100 * (if t0.win then 1 else 0), ?_, by linarith, by linarith⟩
    simp only [compute_label, hteams]
    rw [if_neg (ne_of_gt hsumpos)]
  · obtain ⟨t0, ts, hteams⟩ := List.exists_cons_of_ne_nil hne
    have : ((gold100 info : ℚ) + (gold200 info : ℚ)) = 0 := by
      have : ((gold100 info + gold200 info : Nat) : ℚ) = 0 := by exact_mod_cast hzero
      push_cast at this
      linarith
    simp only [compute_label, hteams]
    rw [if_pos this]
  · simp only [compute_label, hnil]

/-- Witness for the amended C10 at concrete details: the 60/40 detail
yields a label in [0, 1]; a zero-gold detail and an empty-teams detail
both raise. -/
theorem c10_witness :
    (info60.teams ≠ [] ∧ 0 < gold100 info60 + gold200 info60 ∧
      ∃ q, compute_label info60 = some q ∧ 0 ≤ q ∧ q ≤ 1) ∧
    compute_label infoZeroGold = none ∧ compute_label infoNoTeams = none :=
  ⟨⟨by decide, by decide, c10_label_partiality.1 info60 (by decide) (by decide)⟩,
   c10_label_partiality.2.1 infoZeroGold (by decide) (by decide),
   c10_label_partiality.2.2 infoNoTeams rfl⟩

/-! ## C2: the feature-complete flag -/

/-- Counterexample to C2 as stated: on a store whose match `M1` is
feature-complete, re-inserting `M1` through the store's own
`insert_match` leaves the flag `false` in the subsequent read — the
`INSERT OR REPLACE` statement does not carry the `vector_complete`
column, so the replacing row takes the column default 0. -/
theorem c2_counterexample :
    stC2.matchTable.map (fun m => (m.match_id, m.vector_complete)) = [("M1", true)] ∧
    (insert_match stC2 "M1" info60 ["A1", "B1"] 1 7).matchTable.map
      (fun m => (m.match_id, m.vector_complete)) = [("M1", false)] :=
  ⟨rfl, rfl⟩

/-- C2 corrected: the flag survives every `mark_complete` call (first
conjunct) and the crawler step never re-inserts an already stored match
id (second conjunct), but a direct `insert_match` of an existing id
resets the flag to `false` (third conjunct). -/
theorem c2_flag_behaviour :
    (∀ (st : Store) (mid : String) (m : MatchRow), m ∈ st.matchTable →
       m.vector_complete = true →
       ∃ m' ∈ (mark_complete st mid).matchTable,
         m'.match_id = m.match_id ∧ m'.vector_complete = true) ∧
    (∀ (detail : String → Option MatchDto) (now : ℚ) (st : Store) (mid : String),
       match_exists st mid = true → processMid detail now st mid = some st) ∧
    (∀ (st : Store) (mid : String) (info : Info) (ordered : List String) (label now : ℚ)
       (m' : MatchRow), m' ∈ (insert_match st mid info ordered label now).matchTable →
       m'.match_id = mid → m'.vector_complete = false) := by
  refine ⟨fun st mid m hm hvc => ?_, fun detail now st mid h => ?_,
    fun st mid info ordered label now m' hm' hid => ?_⟩
  · refine ⟨if m.match_id = mid then { m with vector_complete := true } else m,
      List.mem_map_of_mem _ hm, ?_, ?_⟩
    · split <;> rfl
    · split
      · rfl
      · exact hvc
  · simp [processMid, h]
  · rcases List.mem_append.mp hm' with h | h
    · have hp := List.of_mem_filter h
      rw [decide_eq_true_eq] at hp
      exact absurd hid hp
    · rw [List.mem_singleton.mp h]

/-- Witness for the corrected C2 at concrete stores. -/
theorem c2_witness :
    (∃ m' ∈ (mark_complete stC2 "M9").matchTable,
       m'.match_id = c2row.match_id ∧ m'.vector_complete = true) ∧
    processMid (fun _ => none) 0 stC2 "M1" = some stC2 ∧
    c2rowIns.vector_complete = false :=
  ⟨c2_flag_behaviour.1 stC2 "M9" c2row (List.mem_singleton_self c2row) rfl,
   c2_flag_behaviour.2.1 (fun _ => none) 0 stC2 "M1" rfl,
   c2_flag_behaviour.2.2 stC2 "M1" info60 ["A1", "B1"] 1 7 c2rowIns
     (List.mem_append_right _ (List.mem_singleton_self c2rowIns)) rfl⟩

/-! ## C8: refresh with no new matches -/

theorem insertPhaseStep_of_stored (puuid : String) (detail : String → Option MatchDto)
    (now : ℚ) (st : Store) (mid : String)
    (h : ∃ r ∈ st.player_match_stats, r.puuid = puuid ∧ r.match_id = mid) :
    insertPhaseStep puuid detail now st mid = st := by
  unfold insertPhaseStep
  rcases h with ⟨r, hr, hp, hm⟩
  rw [if_pos (List.any_eq_true.mpr ⟨r, hr, by simp [hp, hm]⟩)]

theorem insertPhase_of_stored (puuid : String) (detail : String → Option MatchDto)
    (now : ℚ) : ∀ (ids : List String) (st : Store),
    (∀ mid ∈ ids, ∃ r ∈ st.player_match_stats, r.puuid = puuid ∧ r.match_id = mid) →
    insertPhase puuid detail now st ids = st := by
  intro ids
  induction ids with
  | nil => intro st _; rfl
  | cons mid rest ih =>
      intro st h
      show List.foldl (insertPhaseStep puuid detail now) st (mid :: rest) = st
      rw [List.foldl_cons,
        insertPhaseStep_of_stored puuid detail now st mid (h mid (List.mem_cons_self _ _))]
      exact ih st fun m hm => h m (List.mem_cons_of_mem _ hm)

theorem keptRowids_of_le {stats : List StatRow} {p : String} {k : Nat}
    (h : (rowsOf stats p).length ≤ k) {r : StatRow} (hr : r ∈ rowsOf stats p) :
    r.rowid ∈ keptRowids stats p k := by
  unfold keptRowids
  have hperm := List.perm_insertionSort moreRecentOrEq (rowsOf stats p)
  have hlen : (List.insertionSort moreRecentOrEq (rowsOf stats p)).length ≤ k := by
    rw [hperm.length_eq]; exact h
  rw [List.take_of_length_le hlen]
  exact List.mem_map_of_mem _ (hperm.mem_iff.mpr hr)

/-- `delete_old_matches` is a no-op when the player holds at most `keep`
rows. -/
theorem trimStats_of_le {stats : List StatRow} {p : String} {k : Nat}
    (h : (rowsOf stats p).length ≤ k) : trimStats stats p k = stats := by
  unfold trimStats
  apply List.filter_eq_self.mpr
  intro r hr
  rw [decide_eq_true_eq]
  by_cases hp : r.puuid = p
  · exact Or.inr (keptRowids_of_le h (List.mem_filter.mpr ⟨hr, by simp [hp]⟩))
  · exact Or.inl hp

/-- Counterexample to C8 as stated: refreshing player `P` when the single
listed match id is already stored still changes the store's content — the
player's `last_scraped` timestamp moves from 5 to the current time 99. -/
theorem c8_counterexample :
    update_player "P" ["M1"] (fun _ => none) 99 stC8 ≠ stC8 ∧
    (update_player "P" ["M1"] (fun _ => none) 99 stC8).players.map (·.last_scraped)
      = [some 99] ∧
    stC8.players.map (·.last_scraped) = [some 5] :=
  ⟨by decide, by decide, by decide⟩

/-- C8 corrected: when the upstream listing returns no match ids that are
not already stored for the player (and the player holds at most the 10
rows the trim maintains), `update_player` leaves every table unchanged
except for setting the player's `last_scraped` to the current time: with
a non-empty id list the run equals a bare `mark_scraped`, and with an
empty id list the store is entirely unchanged. -/
theorem c8_refresh_no_new (puuid : String) (ids : List String)
    (detail : String → Option MatchDto) (now : ℚ) (st : Store)
    (hstored : ∀ mid ∈ ids, ∃ r ∈ st.player_match_stats, r.puuid = puuid ∧ r.match_id = mid)
    (hlen : (rowsOf st.player_match_stats puuid).length ≤ 10) :
    (ids = [] → update_player puuid ids detail now st = st) ∧
    (ids ≠ [] → update_player puuid ids detail now st = mark_scraped st puuid now) := by
  constructor
  · intro h; unfold update_player; rw [if_pos h]
  · intro h
    unfold update_player
    rw [if_neg h, insertPhase_of_stored puuid detail now ids st hstored]
    unfold delete_old_matches
    rw [trimStats_of_le hlen]

/-- Witness for the corrected C8 on a concrete store: the already-stored
id list leaves everything but `last_scraped` unchanged. -/
theorem c8_witness :
    (∀ mid ∈ ["M1"], ∃ r ∈ stC8.player_match_stats, r.puuid = "P" ∧ r.match_id = mid) ∧
    (rowsOf stC8.player_match_stats "P").length ≤ 10 ∧
    update_player "P" ["M1"] (fun _ => none) 99 stC8 = mark_scraped stC8 "P" 99 :=
  ⟨by decide, by decide,
   (c8_refresh_no_new "P" ["M1"] (fun _ => none) 99 stC8 (by decide) (by decide)).2
     (by decide)⟩

/-! ## C1: the per-player sliding window -/

theorem mem_rowsOf {stats : List StatRow} {p : String} {r : StatRow} :
    r ∈ rowsOf stats p ↔ r ∈ stats ∧ r.puuid = p := by
  simp [rowsOf]

theorem mem_trimStats {stats : List StatRow} {p : String} {k : Nat} {r : StatRow} :
    r ∈ trimStats stats p k ↔
      r ∈ stats ∧ (r.puuid = p → r.rowid ∈ keptRowids stats p k) := by
  unfold trimStats
  rw [List.mem_filter]
  simp only [decide_eq_true_eq]
  constructor
  · rintro ⟨h1, h2 | h2⟩
    · exact ⟨h1, fun hp => absurd hp h2⟩
    · exact ⟨h1, fun _ => h2⟩
  · rintro ⟨h1, h2⟩
    by_cases hp : r.puuid = p
    · exact ⟨h1, Or.inr (h2 hp)⟩
    · exact ⟨h1, Or.inl hp⟩

theorem rowsOf_nodup_rowid {stats : List StatRow} {p : String}
    (hnd : (stats.map (·.rowid)).Nodup) : ((rowsOf stats p).map (·.rowid)).Nodup :=
  hnd.sublist ((List.filter_sublist stats).map _)

/-- The retained rows of the player after a trim are exactly the first
`k` rows of the recency-sorted player rows. -/
theorem mem_rowsOf_trim_iff {stats : List StatRow} {p : String} {k : Nat}
    (hnd : (stats.map (·.rowid)).Nodup) {r : StatRow} :
    r ∈ rowsOf (trimStats stats p k) p ↔
      r ∈ (List.insertionSort moreRecentOrEq (rowsOf stats p)).take k := by
  have hperm := List.perm_insertionSort moreRecentOrEq (rowsOf stats p)
  constructor
  · intro hr
    obtain ⟨hrt, hp⟩ := mem_rowsOf.mp hr
    obtain ⟨hrs, hkept⟩ := mem_trimStats.mp hrt
    obtain ⟨y, hy, hyid⟩ := List.mem_map.mp (hkept hp)
    have hys : y ∈ rowsOf stats p := hperm.mem_iff.mp (List.mem_of_mem_take hy)
    have hxy : y = r :=
      List.inj_on_of_nodup_map hnd (mem_rowsOf.mp hys).1 hrs hyid
    rwa [hxy] at hy
  · intro hr
    have hrs : r ∈ rowsOf stats p := hperm.mem_iff.mp (List.mem_of_mem_take hr)
    obtain ⟨hstat, hp⟩ := mem_rowsOf.mp hrs
    exact mem_rowsOf.mpr
      ⟨mem_trimStats.mpr ⟨hstat, fun _ => List.mem_map_of_mem _ hr⟩, hp⟩

/-- After a trim the player retains exactly `min k` of their previous row
count. -/
theorem trim_rowsOf_length {stats : List StatRow} {p : String} {k : Nat}
    (hnd : (stats.map (·.rowid)).Nodup) :
    (rowsOf (trimStats stats p k) p).length = min k (rowsOf stats p).length := by
  have hperm := List.perm_insertionSort moreRecentOrEq (rowsOf stats p)
  have hnl : (rowsOf stats p).Nodup := (rowsOf_nodup_rowid hnd).of_map
  have hns : (List.insertionSort moreRecentOrEq (rowsOf stats p)).Nodup :=
    hperm.nodup_iff.mpr hnl
  have htake : ((List.insertionSort moreRecentOrEq (rowsOf stats p)).take k).Nodup :=
    hns.sublist (List.take_sublist _ _)
  have htrim : (rowsOf (trimStats stats p k) p).Nodup :=
    (List.Nodup.of_map _ hnd).sublist ((List.filter_sublist _).trans (List.filter_sublist _))
  have hptt : List.Perm (rowsOf (trimStats stats p k) p)
      ((List.insertionSort moreRecentOrEq (rowsOf stats p)).take k) :=
    (List.perm_ext_iff_of_nodup htrim htake).mpr fun _ => mem_rowsOf_trim_iff hnd
  rw [hptt.length_eq, List.length_take, hperm.length_eq]

theorem trim_evicted_le {stats : List StatRow} {p : String} {k : Nat}
    (hnd : (stats.map (·.rowid)).Nodup) {r r' : StatRow}
    (hr : r ∈ rowsOf stats p) (hout : r ∉ trimStats stats p k)
    (hr' : r' ∈ rowsOf (trimStats stats p k) p) :
    r.timestamp ≤ r'.timestamp := by
  have hperm := List.perm_insertionSort moreRecentOrEq (rowsOf stats p)
  have hrs : r ∈ List.insertionSort moreRecentOrEq (rowsOf stats p) := hperm.mem_iff.mpr hr
  have hrtake : r ∉ (List.insertionSort moreRecentOrEq (rowsOf stats p)).take k := fun h =>
    hout (mem_trimStats.mpr ⟨(mem_rowsOf.mp hr).1, fun _ => List.mem_map_of_mem _ h⟩)
  have hrdrop : r ∈ (List.insertionSort moreRecentOrEq (rowsOf stats p)).drop k := by
    rw [← List.take_append_drop k (List.insertionSort moreRecentOrEq (rowsOf stats p))] at hrs
    rcases List.mem_append.mp hrs with h | h
    · exact absurd h hrtake
    · exact h
  have hr'take := (mem_rowsOf_trim_iff hnd).mp hr'
  have hsorted : List.Sorted moreRecentOrEq
      (List.insertionSort moreRecentOrEq (rowsOf stats p)) :=
    List.sorted_insertionSort moreRecentOrEq _
  rw [← List.take_append_drop k (List.insertionSort moreRecentOrEq (rowsOf stats p))]
    at hsorted
  have hrel : moreRecentOrEq r' r :=
    (List.pairwise_append.mp hsorted).2.2 r' hr'take r hrdrop
  rcases hrel with h | ⟨h, _⟩
  · exact le_of_lt h
  · exact le_of_eq h.symm

/-- A store-level insert keeps rowids distinct and bounded. -/
theorem wf_insert_player_match (st : Store) (h : wfStats st) (puuid mid : String)
    (ts : ℚ) (role : String) (k d a g dm v : Nat) :
    wfStats (insert_player_match st puuid mid ts role k d a g dm v) := by
  obtain ⟨hnd, hlt⟩ := h
  have hstats : (insert_player_match st puuid mid ts role k d a g dm v).player_match_stats =
      (st.player_match_stats.filter fun r => decide (¬(r.puuid = puuid ∧ r.match_id = mid)))
        ++ [⟨st.nextRowid, puuid, mid, ts, role, k, d, a, g, dm, v⟩] := rfl
  constructor
  · rw [hstats, List.map_append, List.nodup_append]
    refine ⟨hnd.sublist ((List.filter_sublist _).map _), List.nodup_singleton _, ?_⟩
    intro x hx
    obtain ⟨r, hr, hrx⟩ := List.mem_map.mp hx
    have hrs : r ∈ st.player_match_stats := (List.filter_sublist _).subset hr
    have : x < st.nextRowid := hrx ▸ hlt r hrs
    simp only [List.map_cons, List.map_nil, List.mem_singleton]
    omega
  · intro r hr
    rw [hstats] at hr
    rcases List.mem_append.mp hr with h | h
    · have hm : r ∈ st.player_match_stats := (List.filter_sublist _).subset h
      have := hlt r hm
      show r.rowid < st.nextRowid + 1
      omega
    · rw [List.mem_singleton.mp h]
      show st.nextRowid < st.nextRowid + 1
      omega

theorem wf_insertPhaseStep (puuid : String) (detail : String → Option MatchDto) (now : ℚ)
    (st : Store) (mid : String) (h : wfStats st) :
    wfStats (insertPhaseStep puuid detail now st mid) := by
  unfold insertPhaseStep
  split
  · exact h
  · split
    · exact h
    · split
      · exact h
      · split
        · exact h
        · exact wf_insert_player_match st h _ _ _ _ _ _ _ _ _ _

theorem wf_insertPhase (puuid : String) (detail : String → Option MatchDto) (now : ℚ) :
    ∀ (ids : List String) (st : Store), wfStats st →
    wfStats (insertPhase puuid detail now st ids) := by
  intro ids
  induction ids with
  | nil => intro st h; exact h
  | cons mid rest ih =>
      intro st h
      show wfStats (List.foldl (insertPhaseStep puuid detail now)
        (insertPhaseStep puuid detail now st mid) rest)
      exact ih _ (wf_insertPhaseStep puuid detail now st mid h)

/-- Counterexample to C1 as stated: at the store interface,
`insert_player_match` performs no trim — inserting an eleventh row for a
player who already holds ten leaves all eleven retained. -/
theorem c1_counterexample :
    (rowsOf tenStore.player_match_stats "P").length = 10 ∧
    (rowsOf (insert_player_match tenStore "P" "M10" 10 "TOP" 1 2 3 4 5 6).player_match_stats
      "P").length = 11 :=
  ⟨by decide, by decide⟩

/-- C1 corrected: the trim is not automatic at the store's insert; it is
the orchestration (`update_player`) that calls `delete_old_matches` after
its insert loop.  After any `update_player` run that reaches the trim
(non-empty id list): at most 10 rows are retained for the player; exactly
`min 10 n` rows are retained where `n` is the player's row count after
the inserts, so exactly 10 whenever 10 or more were present; every
retained row was present before the trim; and every evicted row's
timestamp is at most every retained row's timestamp (the retained set is
the 10 most recent by timestamp, tie-robustly stated). -/
theorem c1_trim_after_update (puuid : String) (ids : List String)
    (detail : String → Option MatchDto) (now : ℚ) (st : Store)
    (hwf : wfStats st) (hids : ids ≠ []) :
    (rowsOf (update_player puuid ids detail now st).player_match_stats puuid).length ≤ 10 ∧
    (rowsOf (update_player puuid ids detail now st).player_match_stats puuid).length =
      min 10 (rowsOf (insertPhase puuid detail now st ids).player_match_stats puuid).length ∧
    (∀ r' ∈ (update_player puuid ids detail now st).player_match_stats,
       r' ∈ (insertPhase puuid detail now st ids).player_match_stats) ∧
    (∀ r ∈ rowsOf (insertPhase puuid detail now st ids).player_match_stats puuid,
       r ∉ (update_player puuid ids detail now st).player_match_stats →
       ∀ r' ∈ rowsOf (update_player puuid ids detail now st).player_match_stats puuid,
         r.timestamp ≤ r'.timestamp) := by
  have hwf' := wf_insertPhase puuid detail now ids st hwf
  have hup : (update_player puuid ids detail now st).player_match_stats =
      trimStats (insertPhase puuid detail now st ids).player_match_stats puuid 10 := by
    unfold update_player
    rw [if_neg hids]
    rfl
  rw [hup]
  refine ⟨?_, trim_rowsOf_length hwf'.1, fun r' h => (List.filter_sublist _).subset h,
    fun r hr hout r' hr' => trim_evicted_le hwf'.1 hr hout hr'⟩
  rw [trim_rowsOf_length hwf'.1]
  exact min_le_left _ _

/-- Witness for the corrected C1: updating player `P`, who holds ten
rows, with one genuinely new match trims back down to ten rows. -/
theorem c1_witness :
    wfStats tenStore ∧ (["NEW"] : List String) ≠ [] ∧
    (rowsOf (update_player "P" ["NEW"] newDetail 99 tenStore).player_match_stats
      "P").length ≤ 10 :=
  ⟨by decide, by decide,
   (c1_trim_after_update "P" ["NEW"] newDetail 99 tenStore (by decide) (by decide)).1⟩

/-! ## C3: participant lists of stored matches -/

theorem insert_player_matchTable (st : Store) (pid : String) (tier : Option String)
    (d : Nat) : (insert_player st pid tier d).matchTable = st.matchTable := by
  unfold insert_player; split <;> rfl

/-- The crawler's new-participant loop only touches the players table. -/
theorem foldl_players_matchTable (pids : List String) :
    ∀ st : Store,
    (pids.foldl (fun s pid => set_in_match (insert_player s pid none 1) pid) st).matchTable
      = st.matchTable := by
  induction pids with
  | nil => intro st; rfl
  | cons pid rest ih =>
      intro st
      rw [List.foldl_cons, ih]
      show (insert_player st pid none 1).matchTable = st.matchTable
      rw [insert_player_matchTable]

/-- Counterexample to C3 as stated: a ranked match detail with duplicated
roles (six blue participants, two of them TOP, and four red ones) yields
a role-ordered list of length exactly 10, so the crawler stores it — yet
the stored list is not split 5/5 by side: its sixth entry is a
blue-team participant. -/
theorem c3_counterexample :
    ((processMid dupRoleDetail 0 emptyStore "EUW1_DUP").map fun st =>
        st.matchTable.map fun m => (m.match_id, m.puuids)) =
      some [("EUW1_DUP", order_puuids_by_role dupRoleParts)] ∧
    (order_puuids_by_role dupRoleParts).length = 10 ∧
    ¬ canonicalSplit dupRoleInfo (order_puuids_by_role dupRoleParts) := by
  refine ⟨?_, by decide, by decide⟩
  have hlab : compute_label dupRoleInfo = some (39 / 50) := by
    norm_num [compute_label, dupRoleInfo, gold100, gold200, dupRoleParts, mkP]
  have hlen : (order_puuids_by_role dupRoleParts).length = 10 := by decide
  have hq : dupRoleInfo.queueId = 420 := rfl
  have hp : dupRoleInfo.participants = dupRoleParts := rfl
  simp [processMid, match_exists, emptyStore, dupRoleDetail, hq, hp, hlab,
    hlen, foldl_players_matchTable, insert_match]

/-- C3 corrected: every match the crawler step newly stores carries
exactly the role-ordered list `blueSide ++ redSide` of length exactly 10
(first conjunct); that list is a true 5/5 canonical split whenever each
side resolves exactly one participant per role (second conjunct) — but
not in general, as the counterexample shows; and a detail whose
role-ordered list does not have length 10 (for example one with only
nine resolvable participants) is skipped with the store unchanged, so
zero rows are written and the match is never marked feature-complete
(third conjunct). -/
theorem c3_stored_matches :
    (∀ (detail : String → Option MatchDto) (now : ℚ) (st : Store) (mid : String)
       (st' : Store), processMid detail now st mid = some st' →
       match_exists st mid = false → match_exists st' mid = true →
       ∃ dto, detail mid = some dto ∧ ∃ info, dto.info = some info ∧
         info.queueId = 420 ∧
         ∀ m ∈ st'.matchTable, m.match_id = mid →
           m.puuids = order_puuids_by_role info.participants ∧
           m.puuids = blueSide info.participants ++ redSide info.participants ∧
           m.puuids.length = 10) ∧
    (∀ info : Info,
       (∀ role ∈ ROLES_ORDER,
          (info.participants.filter fun p =>
            decide (p.teamId = 100 ∧ p.teamPosition = role)).length = 1 ∧
          (info.participants.filter fun p =>
            decide (p.teamId = 200 ∧ p.teamPosition = role)).length = 1) →
       (blueSide info.participants).length = 5 ∧ (redSide info.participants).length = 5 ∧
       order_puuids_by_role info.participants =
         blueSide info.participants ++ redSide info.participants) ∧
    (∀ (detail : String → Option MatchDto) (now : ℚ) (st : Store) (mid : String)
       (dto : MatchDto) (info : Info), detail mid = some dto → dto.info = some info →
       (order_puuids_by_role info.participants).length ≠ 10 →
       processMid detail now st mid = some st) := by
  refine ⟨fun detail now st mid st' hpm hex hex' => ?_, fun info h => ?_,
    fun detail now st mid dto info hd hi hlen => ?_⟩
  · rcases hd : detail mid with _ | dto
    · have heval : processMid detail now st mid = some st := by
        simp [processMid, hex, hd]
      rw [heval] at hpm
      obtain rfl := Option.some.inj hpm
      rw [hex] at hex'
      exact absurd hex' (by simp)
    · rcases hi : dto.info with _ | info
      · have heval : processMid detail now st mid = some st := by
          simp [processMid, hex, hd, hi]
        rw [heval] at hpm
        obtain rfl := Option.some.inj hpm
        rw [hex] at hex'
        exact absurd hex' (by simp)
      · by_cases hq : info.queueId = 420
        · by_cases hlen : (order_puuids_by_role info.participants).length = 10
          · rcases hcl : compute_label info with _ | label
            · have heval : processMid detail now st mid = none := by
                simp [processMid, hex, hd, hi, hq, hlen, hcl]
              rw [heval] at hpm
              exact absurd hpm (by simp)
            · have heval : processMid detail now st mid =
                  some (dto.metadataParticipants.foldl
                    (fun s pid => set_in_match (insert_player s pid none 1) pid)
                    (insert_match st mid info (order_puuids_by_role info.participants)
                      label now)) := by
                simp [processMid, hex, hd, hi, hq, hlen, hcl]
              rw [heval] at hpm
              obtain rfl := Option.some.inj hpm
              refine ⟨dto, rfl, info, hi, hq, fun m hm hmid => ?_⟩
              rw [foldl_players_matchTable] at hm
              rcases List.mem_append.mp hm with hm' | hm'
              · have hne := List.of_mem_filter hm'
                rw [decide_eq_true_eq] at hne
                exact absurd hmid hne
              · rw [List.mem_singleton.mp hm']
                exact ⟨rfl, rfl, hlen⟩
          · have heval : processMid detail now st mid = some st := by
              simp [processMid, hex, hd, hi, hq, hlen]
            rw [heval] at hpm
            obtain rfl := Option.some.inj hpm
            rw [hex] at hex'
            exact absurd hex' (by simp)
        · have heval : processMid detail now st mid = some st := by
            simp [processMid, hex, hd, hi, hq]
          rw [heval] at hpm
          obtain rfl := Option.some.inj hpm
          rw [hex] at hex'
          exact absurd hex' (by simp)
  · have h1 := (h "TOP" (by simp [ROLES_ORDER])).1
    have h2 := (h "JUNGLE" (by simp [ROLES_ORDER])).1
    have h3 := (h "MIDDLE" (by simp [ROLES_ORDER])).1
    have h4 := (h "BOTTOM" (by simp [ROLES_ORDER])).1
    have h5 := (h "UTILITY" (by simp [ROLES_ORDER])).1
    have g1 := (h "TOP" (by simp [ROLES_ORDER])).2
    have g2 := (h "JUNGLE" (by simp [ROLES_ORDER])).2
    have g3 := (h "MIDDLE" (by simp [ROLES_ORDER])).2
    have g4 := (h "BOTTOM" (by simp [ROLES_ORDER])).2
    have g5 := (h "UTILITY" (by simp [ROLES_ORDER])).2
    refine ⟨?_, ?_, rfl⟩
    · simp only [blueSide, ROLES_ORDER, List.flatMap_cons, List.flatMap_nil,
        List.append_nil, List.length_append, List.length_map]
      rw [h1, h2, h3, h4, h5]
    · simp only [redSide, ROLES_ORDER, List.flatMap_cons, List.flatMap_nil,
        List.append_nil, List.length_append, List.length_map]
      rw [g1, g2, g3, g4, g5]
  · rcases hex : match_exists st mid with _ | _
    · simp [processMid, hex, hd, hi, hlen]
    · simp [processMid, hex]

/-- Witness for the corrected C3: the well-formed ten-participant detail
splits 5/5, and the nine-participant detail is skipped with the store
unchanged. -/
theorem c3_witness :
    ((blueSide goodInfo.participants).length = 5 ∧
     (redSide goodInfo.participants).length = 5 ∧
     order_puuids_by_role goodInfo.participants =
       blueSide goodInfo.participants ++ redSide goodInfo.participants) ∧
    processMid nineDetail 0 emptyStore "EUW1_NINE" = some emptyStore :=
  ⟨c3_stored_matches.2.1 goodInfo (by decide),
   c3_stored_matches.2.2 nineDetail 0 emptyStore "EUW1_NINE" nineDto nineInfo rfl rfl
     (by decide)⟩

end LoLPredictor
